import Mathlib

/-! Leaf drivers: register decode and event emission.

A shallow embedding of the decode paths of the drivers
`davinci_keyscan.c`, `cobalt_btns.c`, `pcap_keys.c`, `mc13783-adc.c`,
`da9055_onkey.c`, `gp2ap002a00f.c`, `w90p910_keypad.c` and
`pxa930_rotary.c`.

Conventions of the embedding.

* A driver function that reports into the input layer returns the list of
  calls it makes, in program order, as `InputEvent`s.
* Values read from hardware or returned by helpers that live outside the
  driver (register reads, `mc13xxx_adc_do_conversion`, `da9055_reg_read`)
  are arguments of the embedded function.
* Constants that come from headers outside the driver sources (key codes,
  interrupt numbers, flag bits) are arguments as well.
* `u32` values are natural numbers below `2 ^ 32`; an operation that can
  leave the 32-bit range is reduced modulo `2 ^ 32`. `int` values are
  integers, and an `int` increment wraps in 32 bits.
-/

namespace Drivers

/-! ## The input layer, as seen by the drivers -/

/-- One call into the input event sink. `key` is `input_report_key`,
`sync` is `input_sync`, `msc_scan` is `input_event(dev, EV_MSC, MSC_SCAN, v)`,
`rel` is `input_report_rel` and `sw` is `input_report_switch`. -/
inductive InputEvent where
  | key (code : Nat) (value : Nat)
  | sync
  | msc_scan (value : Nat)
  | rel (code : Nat) (value : Int)
  | sw (code : Nat) (value : Nat)
  deriving DecidableEq, Repr

/-- Return value of an interrupt handler. -/
inductive irqreturn_t where
  | IRQ_NONE
  | IRQ_HANDLED
  deriving DecidableEq, Repr

/-- The call `input_report_key(dev, code, value)`: the input layer stores
`!!value`, so the reported value is 1 exactly when `value` is non-zero. -/
def input_report_key (code : Nat) (value : Int) : InputEvent :=
  InputEvent.key code (if value ≠ 0 then 1 else 0)

/-- C logical negation `!x` of an integer: 1 when `x` is zero, else 0. -/
def lnot (x : Int) : Int := if x = 0 then 1 else 0

/-- The call `input_sync(dev)`. -/
def input_sync : InputEvent := InputEvent.sync

/-- The call `input_report_switch(dev, code, value)`: the input layer
stores `!!value`. -/
def input_report_switch (code : Nat) (value : Int) : InputEvent :=
  InputEvent.sw code (if value ≠ 0 then 1 else 0)

/-- The call `input_report_rel(dev, code, value)`. -/
def input_report_rel (code : Nat) (value : Int) : InputEvent :=
  InputEvent.rel code value

/-! ## davinci_keyscan.c -/

def DAVINCI_KEYSCAN_INTENA : Nat := 0x0004
def DAVINCI_KEYSCAN_INTCLR : Nat := 0x000c
def DAVINCI_KEYSCAN_INT_ALL : Nat := 0x0000000f

/-- What one run of `davinci_ks_interrupt` does: the calls into the input
layer, the register writes `(value, offset)` in program order, and the
returned code. -/
structure KsIrqResult where
  events : List InputEvent
  writes : List (Nat × Nat)
  ret : irqreturn_t
  deriving DecidableEq, Repr

/-- Body of the `for` loop of `davinci_ks_interrupt` at index `i`:
`if ((changed>>i) & 0x1) { keycode = keymap[i]; release = (new_status >> i) & 0x1;
input_report_key(input, keycode, !release); input_sync(input); }`. -/
def davinci_ks_scan_bit (keymap : Nat → Nat) (changed new_status : Nat) (i : Nat) :
    List InputEvent :=
  if (changed >>> i) &&& 0x1 ≠ 0 then
    let keycode := keymap i
    let release : Int := if (new_status >>> i) &&& 0x1 ≠ 0 then 1 else 0
    [input_report_key keycode (lnot release), input_sync]
  else
    []

/-- The loop `for (i = ...; i < keymapsize; i++)` with `remaining` iterations
still to run, the next one at index `i`. -/
def davinci_ks_scan (keymap : Nat → Nat) (changed new_status : Nat) :
    (remaining : Nat) → (i : Nat) → List InputEvent
  | 0, _ => []
  | remaining + 1, i =>
    davinci_ks_scan_bit keymap changed new_status i
      ++ davinci_ks_scan keymap changed new_status remaining (i + 1)

/-- The interrupt handler `davinci_ks_interrupt`. `prev_status` and
`new_status` are the values read from PREVSTATE and CURRENTST, `keymap` is
the driver's key map and `keymapsize` the `int` taken from the platform
data; the loop `for (i = 0; i < keymapsize; i++)` runs `keymapsize.toNat`
times (not at all when `keymapsize` is negative). The right shifts are the
mathematical ones: on a 32-bit value a shift by 32 or more gives 0. -/
def davinci_ks_interrupt (keymap : Nat → Nat) (keymapsize : Int)
    (prev_status new_status : Nat) : KsIrqResult :=
  let changed := prev_status ^^^ new_status
  let disable := [(0x0, DAVINCI_KEYSCAN_INTENA)]
  let enable := [(0x1, DAVINCI_KEYSCAN_INTENA)]
  if changed ≠ 0 then
    { events := davinci_ks_scan keymap changed new_status keymapsize.toNat 0
      writes := disable ++ [(DAVINCI_KEYSCAN_INT_ALL, DAVINCI_KEYSCAN_INTCLR)] ++ enable
      ret := irqreturn_t.IRQ_HANDLED }
  else
    { events := []
      writes := disable ++ enable
      ret := irqreturn_t.IRQ_HANDLED }

/-! ### davinci_ks_initialize -/

def DAVINCI_KEYSCAN_KEYCTRL : Nat := 0x0000
def DAVINCI_KEYSCAN_STRBWIDTH : Nat := 0x0010
def DAVINCI_KEYSCAN_INTERVAL : Nat := 0x0014
def DAVINCI_KEYSCAN_CONTTIME : Nat := 0x0018
def DAVINCI_KEYSCAN_KEYEN : Nat := 0x00000001
def DAVINCI_KEYSCAN_AUTODET : Nat := 0x00000008

/-- What `davinci_ks_initialize` does: the returned code and the register
writes `(value, offset)` in program order. -/
structure KsInitResult where
  ret : Int
  writes : List (Nat × Nat)
  deriving DecidableEq, Repr

/-- The function `davinci_ks_initialize`. `strobe`, `interval` and
`matrix_type` are the platform data fields; the two matrix type values and
`EINVAL` are the header constants. -/
def davinci_ks_initialize (DAVINCI_KEYSCAN_MATRIX_4X4 DAVINCI_KEYSCAN_MATRIX_5X3 : Nat)
    (EINVAL : Int) (strobe interval matrix_type : Nat) : KsInitResult :=
  let setup : List (Nat × Nat) :=
    [ (DAVINCI_KEYSCAN_INT_ALL, DAVINCI_KEYSCAN_INTENA),
      (DAVINCI_KEYSCAN_INT_ALL, DAVINCI_KEYSCAN_INTCLR),
      (strobe, DAVINCI_KEYSCAN_STRBWIDTH),
      (interval, DAVINCI_KEYSCAN_INTERVAL),
      (0x01, DAVINCI_KEYSCAN_CONTTIME) ]
  let matrix_ctrl : Option Nat :=
    if matrix_type = DAVINCI_KEYSCAN_MATRIX_4X4 then some 0
    else if matrix_type = DAVINCI_KEYSCAN_MATRIX_5X3 then some (1 <<< 6)
    else none
  match matrix_ctrl with
  | none => { ret := -EINVAL, writes := setup }
  | some m =>
    { ret := 0
      writes := setup ++
        [(DAVINCI_KEYSCAN_AUTODET ||| DAVINCI_KEYSCAN_KEYEN ||| m, DAVINCI_KEYSCAN_KEYCTRL)] }

/-! ## cobalt_btns.c -/

def BUTTONS_COUNT_THRESHOLD : Int := 3

/-- The driver state `struct buttons_dev`: the key map and the debounce
counters, both arrays of `ARRAY_SIZE(cobalt_map)` entries, read at the
indices 0..7 only. -/
structure buttons_dev where
  keymap : Nat → Nat
  count : Nat → Int

/-- Number of entries of `cobalt_map`, the bound of the loop of
`handle_buttons`. -/
def cobalt_map_size : Nat := 8

/-- An `int` result brought back into the 32-bit two's complement range. -/
def wrap_int (x : Int) : Int := (x + 2 ^ 31) % 2 ^ 32 - 2 ^ 31

/-- Body of the loop of `handle_buttons` at index `i`, for the decoded
`status` word; gives the new state and the calls made. -/
def handle_buttons_step (status : Nat) (bdev : buttons_dev) (i : Nat) :
    buttons_dev × List InputEvent :=
  if status &&& (1 <<< i) ≠ 0 then
    let c := wrap_int (bdev.count i + 1)
    let bdev1 : buttons_dev := { bdev with count := Function.update bdev.count i c }
    if c = BUTTONS_COUNT_THRESHOLD then
      (bdev1, [InputEvent.msc_scan i, input_report_key (bdev.keymap i) 1, input_sync])
    else
      (bdev1, [])
  else
    let out :=
      if bdev.count i ≥ BUTTONS_COUNT_THRESHOLD then
        [InputEvent.msc_scan i, input_report_key (bdev.keymap i) 0, input_sync]
      else
        []
    ({ bdev with count := Function.update bdev.count i 0 }, out)

/-- The loop of `handle_buttons` with `remaining` iterations to run, the
next one at index `i`. -/
def handle_buttons_loop (status : Nat) :
    (remaining : Nat) → (i : Nat) → buttons_dev → buttons_dev × List InputEvent
  | 0, _, bdev => (bdev, [])
  | remaining + 1, i, bdev =>
    let r1 := handle_buttons_step status bdev i
    let r2 := handle_buttons_loop status remaining (i + 1) r1.1
    (r2.1, r1.2 ++ r2.2)

/-- The poll handler `handle_buttons`; `reg` is the value returned by
`readl(bdev->reg)`. `status = ~reg >> 24` on 32 bits. -/
def handle_buttons (reg : Nat) (bdev : buttons_dev) : buttons_dev × List InputEvent :=
  let status := (reg ^^^ 0xffffffff) >>> 24
  handle_buttons_loop status cobalt_map_size 0 bdev

/-! ## pcap_keys.c -/

/-- The interrupt handler `pcap_keys_handler`. `pirq` is the result of
`irq_to_pcap`, `pstat_read` the value `ezx_pcap_read` stores for
`PCAP_REG_PSTAT`; the interrupt numbers and key codes are those of the
PCAP and input headers. `1 << pirq` is taken on 32 bits. -/
def pcap_keys_handler (PCAP_IRQ_ONOFF PCAP_IRQ_MIC KEY_POWER KEY_HP : Nat)
    (pirq : Nat) (pstat_read : Nat) : List InputEvent × irqreturn_t :=
  let pstat : Nat := pstat_read &&& ((1 <<< pirq) % 2 ^ 32)
  let reported :=
    if pirq = PCAP_IRQ_ONOFF then
      [input_report_key KEY_POWER (lnot pstat)]
    else if pirq = PCAP_IRQ_MIC then
      [input_report_key KEY_HP (lnot pstat)]
    else
      []
  (reported ++ [input_sync], irqreturn_t.IRQ_HANDLED)

/-! ## mc13783-adc.c -/

def MC13783_ADC_16CHANS : Nat := 1
def MC13783_ADC_BPDIV2 : Nat := 2

/-- Modelled from the spec: the macro `DIV_ROUND_CLOSEST(x, divisor)` of
`linux/kernel.h` is not part of the driver sources. For `unsigned int`
operands it is the integer nearest to `x / divisor`, exact halves rounded
up: `(x + divisor / 2) / divisor`, the sum taken on 32 bits. -/
def DIV_ROUND_CLOSEST (x divisor : Nat) : Nat :=
  ((x + divisor / 2) % 2 ^ 32) / divisor

/-- The function `mc13783_adc_read`: `conv_ret` and `sample` are the return
value and the four words written by `mc13xxx_adc_do_conversion`, `index`
is `attr->index`. An error is the non-zero return value; on success the
result is the value stored in `*val` (and the function returns 0). -/
def mc13783_adc_read (conv_ret : Int) (sample : Nat → Nat) (index : Nat) :
    Except Int Nat :=
  if conv_ret ≠ 0 then
    Except.error conv_ret
  else
    let channel := index &&& 0x7
    Except.ok ((sample (channel % 4) >>> (if channel > 3 then 14 else 2)) &&& 0x3ff)

/-- The sysfs show function `mc13783_adc_read_bp`; the result is the
number handed to `sprintf(buf, "%u\n", val)`, or the error returned. -/
def mc13783_adc_read_bp (driver_data : Nat) (conv_ret : Int) (sample : Nat → Nat)
    (index : Nat) : Except Int Nat :=
  match mc13783_adc_read conv_ret sample index with
  | Except.error ret => Except.error ret
  | Except.ok val =>
    if driver_data &&& MC13783_ADC_BPDIV2 ≠ 0 then
      Except.ok (DIV_ROUND_CLOSEST (val * 9 % 2 ^ 32) 2)
    else
      Except.ok ((DIV_ROUND_CLOSEST (val * 9 % 2 ^ 32) 4 + 2400) % 2 ^ 32)

/-- The sysfs show function `mc13783_adc_read_gp`; the result is the
number handed to `sprintf(buf, "%u\n", val)`, or the error returned. -/
def mc13783_adc_read_gp (conv_ret : Int) (sample : Nat → Nat) (index : Nat) :
    Except Int Nat :=
  match mc13783_adc_read conv_ret sample index with
  | Except.error ret => Except.error ret
  | Except.ok val => Except.ok (DIV_ROUND_CLOSEST (val * 9 % 2 ^ 32) 4)

/-- The three attribute groups of the driver: `mc13783_group_base`
(in2, in5, in6, in7), `mc13783_group_16chans` (in8..in11) and
`mc13783_group_ts` (in12..in15). -/
inductive attribute_group where
  | mc13783_group_base
  | mc13783_group_16chans
  | mc13783_group_ts
  deriving DecidableEq, Repr

/-- Outcome of `mc13783_adc_probe`: the returned code and, when the
registration call is reached, the groups stored in `priv->groups` before
the terminating NULL. -/
structure ProbeResult where
  ret : Int
  groups : Option (List attribute_group)
  deriving DecidableEq, Repr

/-- The probe function `mc13783_adc_probe`. `alloc_ok` tells whether
`devm_kzalloc` succeeded, `driver_data` is `id->driver_data`, `flags` the
result of `mc13xxx_get_flags`, and `hwmon_err` is
`PTR_ERR_OR_ZERO(hwmon_dev)` of the registration; `ENOMEM` and
`MC13XXX_USE_TOUCHSCREEN` are the header constants. -/
def mc13783_adc_probe (ENOMEM : Int) (MC13XXX_USE_TOUCHSCREEN : Nat) (alloc_ok : Bool)
    (driver_data flags : Nat) (hwmon_err : Int) : ProbeResult :=
  if !alloc_ok then
    { ret := -ENOMEM, groups := none }
  else
    let groups0 := [attribute_group.mc13783_group_base]
    let groups1 :=
      if driver_data &&& MC13783_ADC_16CHANS ≠ 0 then
        groups0 ++ [attribute_group.mc13783_group_16chans]
      else groups0
    let groups2 :=
      if flags &&& MC13XXX_USE_TOUCHSCREEN ≠ 0 then
        groups1 ++ [attribute_group.mc13783_group_ts]
      else groups1
    { ret := hwmon_err, groups := some groups2 }

/-! ## da9055_onkey.c -/

/-- What one run of `da9055_onkey_query` does: the calls into the input
layer and, when `schedule_delayed_work` is called, its delay in
milliseconds. -/
structure OnkeyResult where
  events : List InputEvent
  scheduled : Option Nat
  deriving DecidableEq, Repr

/-- The function `da9055_onkey_query`; `reg_read` is the result of
`da9055_reg_read(onkey->da9055, DA9055_REG_STATUS_A)`. -/
def da9055_onkey_query (DA9055_NOKEY_STS KEY_POWER : Nat) (reg_read : Int) : OnkeyResult :=
  let key_stat0 : Int := reg_read
  let r : Int × List InputEvent :=
    if key_stat0 < 0 then
      (key_stat0, [])
    else
      let key_stat1 := Int.land key_stat0 (DA9055_NOKEY_STS : Int)
      if key_stat1 = 0 then
        (key_stat1, [input_report_key KEY_POWER 0, input_sync])
      else
        (key_stat1, [])
  { events := r.2
    scheduled := if r.1 ≠ 0 then some 10 else none }

/-- The threaded interrupt handler `da9055_onkey_irq`: a press is reported,
then the status is queried. -/
def da9055_onkey_irq (DA9055_NOKEY_STS KEY_POWER : Nat) (reg_read : Int) :
    OnkeyResult × irqreturn_t :=
  let q := da9055_onkey_query DA9055_NOKEY_STS KEY_POWER reg_read
  ({ q with events := [input_report_key KEY_POWER 1, input_sync] ++ q.events },
    irqreturn_t.IRQ_HANDLED)

/-! ## gp2ap002a00f.c -/

def GP2A_ADDR_OPMOD : Nat := 0x4
def GP2A_CTRL_SSD : Nat := 0x01

/-- The function `gp2a_report`; `vo` is the value returned by
`gpio_get_value`. Gives the returned code and the calls made. -/
def gp2a_report (SW_FRONT_PROXIMITY : Nat) (vo : Int) : Int × List InputEvent :=
  (0, [input_report_switch SW_FRONT_PROXIMITY (lnot vo), input_sync])

/-- The I2C write issued by `gp2a_enable`, as `(register, value)`; its
result is the return value of `i2c_smbus_write_byte_data`. -/
def gp2a_enable : Nat × Nat := (GP2A_ADDR_OPMOD, GP2A_CTRL_SSD)

/-- What `gp2a_device_open` does: the returned code, the calls into the
input layer and the I2C writes `(register, value)`. -/
structure Gp2aOpenResult where
  ret : Int
  events : List InputEvent
  i2c_writes : List (Nat × Nat)
  deriving DecidableEq, Repr

/-- The function `gp2a_device_open`; `enable_ret` is the result of the
write of `gp2a_enable` and `vo` the GPIO level read by `gp2a_report`. -/
def gp2a_device_open (SW_FRONT_PROXIMITY : Nat) (enable_ret : Int) (vo : Int) :
    Gp2aOpenResult :=
  let error := enable_ret
  if error < 0 then
    { ret := error, events := [], i2c_writes := [gp2a_enable] }
  else
    { ret := 0
      events := (gp2a_report SW_FRONT_PROXIMITY vo).2
      i2c_writes := [gp2a_enable] }

/-! ## w90p910_keypad.c -/

def SBCR : Nat := 0x04
def SBCR_ERSB : Nat := 1 <<< 5

/-- The platform data `struct pxa930_rotary_platform_data`, as far as the
interrupt handler reads it. -/
structure pxa930_rotary_platform_data where
  up_key : Nat
  down_key : Nat
  rel_code : Nat
  deriving DecidableEq, Repr

/-- The function `clear_sbcr`: the two register writes `(value, offset)`
for the value `sbcr` read from SBCR; `~SBCR_ERSB` is taken on 32 bits. -/
def clear_sbcr (sbcr : Nat) : List (Nat × Nat) :=
  [(sbcr ||| SBCR_ERSB, SBCR), (sbcr &&& (0xffffffff ^^^ SBCR_ERSB), SBCR)]

/-- What one run of `rotary_irq` does: the new `last_ercr`, the calls into
the input layer, the register writes and the returned code. -/
structure RotaryResult where
  last_ercr : Int
  events : List InputEvent
  writes : List (Nat × Nat)
  ret : irqreturn_t
  deriving DecidableEq, Repr

/-- The interrupt handler `rotary_irq`; `ercr_read` and `sbcr_read` are the
values read from ERCR and SBCR, `last_ercr` is the stored field. The `int`
subtraction wraps in 32 bits. -/
def rotary_irq (pdata : pxa930_rotary_platform_data) (last_ercr : Int)
    (ercr_read sbcr_read : Nat) : RotaryResult :=
  let ercr : Int := ((ercr_read &&& 0xf : Nat) : Int)
  let writes := clear_sbcr sbcr_read
  let delta := wrap_int (ercr - last_ercr)
  if delta = 0 then
    { last_ercr := last_ercr, events := [], writes := writes,
      ret := irqreturn_t.IRQ_HANDLED }
  else
    let reported :=
      if pdata.up_key ≠ 0 ∧ pdata.down_key ≠ 0 then
        let key := if delta > 0 then pdata.up_key else pdata.down_key
        [input_report_key key 1, input_sync, input_report_key key 0]
      else
        [input_report_rel pdata.rel_code delta]
    { last_ercr := ercr, events := reported ++ [input_sync], writes := writes,
      ret := irqreturn_t.IRQ_HANDLED }

/-! ## Specification-side definitions

The definitions below restate, in the words of the specification, what a
driver function is expected to report; the theorems compare them with the
functions above. -/

/-- Events of one changed key, in the words of the specification: the key
code of position `i`, value 1 (pressed) when bit `i` of the new status is 0
and value 0 (released) when it is 1, followed by a sync. -/
def spec_key_change (keymap : Nat → Nat) (new_status : Nat) (i : Nat) : List InputEvent :=
  [InputEvent.key (keymap i) (if new_status.testBit i then 0 else 1), InputEvent.sync]

/-- Whether button `i` is active, in the words of the specification: bit
`24 + i` of the register value is 0. -/
def spec_button_active (reg : Nat) (i : Nat) : Bool := !reg.testBit (24 + i)

/-- Calls made for button `i` in one poll step, in the words of the
specification: an active button emits a press when its incremented counter
is exactly 3, an inactive button emits a release when its old counter is at
least 3. -/
def spec_button_events (reg : Nat) (bdev : buttons_dev) (i : Nat) : List InputEvent :=
  if spec_button_active reg i then
    if bdev.count i + 1 = 3 then
      [InputEvent.msc_scan i, InputEvent.key (bdev.keymap i) 1, InputEvent.sync]
    else []
  else
    if bdev.count i ≥ 3 then
      [InputEvent.msc_scan i, InputEvent.key (bdev.keymap i) 0, InputEvent.sync]
    else []

/-- Counter of button `i` after one poll step, in the words of the
specification: incremented when the button is active, reset to 0 when not. -/
def spec_button_count (reg : Nat) (bdev : buttons_dev) (i : Nat) : Int :=
  if spec_button_active reg i then bdev.count i + 1 else 0

/-! # Theorems -/

/-! ## Bit-level helper facts -/

theorem shiftRight_and_one_ne_zero (x i : Nat) :
    ((x >>> i) &&& 1 ≠ 0) ↔ x.testBit i = true := by
  unfold Nat.testBit
  rw [Nat.and_comm]
  simp

theorem and_one_shiftLeft_ne_zero (x i : Nat) :
    (x &&& (1 <<< i) ≠ 0) ↔ x.testBit i = true := by
  rw [Nat.one_shiftLeft, Nat.and_two_pow]
  cases h : x.testBit i <;> simp

theorem davinci_ks_scan_bit_eq (keymap : Nat → Nat) (changed new_status i : Nat) :
    davinci_ks_scan_bit keymap changed new_status i =
      if changed.testBit i then spec_key_change keymap new_status i else [] := by
  unfold davinci_ks_scan_bit spec_key_change
  by_cases hc : changed.testBit i = true
  · have h1 : (changed >>> i) &&& 0x1 ≠ 0 := (shiftRight_and_one_ne_zero changed i).2 hc
    rw [if_pos h1, if_pos hc]
    by_cases hn : new_status.testBit i = true
    · have h2 : (new_status >>> i) &&& 0x1 ≠ 0 := (shiftRight_and_one_ne_zero new_status i).2 hn
      rw [if_pos h2, if_pos hn]
      rfl
    · have h2 : ¬ ((new_status >>> i) &&& 0x1 ≠ 0) :=
        fun h => hn ((shiftRight_and_one_ne_zero new_status i).1 h)
      rw [if_neg h2, if_neg hn]
      rfl
  · have h1 : ¬ ((changed >>> i) &&& 0x1 ≠ 0) :=
      fun h => hc ((shiftRight_and_one_ne_zero changed i).1 h)
    rw [if_neg h1, if_neg hc]

theorem davinci_ks_scan_eq (keymap : Nat → Nat) (changed new_status : Nat) :
    ∀ (remaining i : Nat),
      davinci_ks_scan keymap changed new_status remaining i =
        ((List.range' i remaining).filter (fun j => changed.testBit j)).flatMap
          (spec_key_change keymap new_status) := by
  intro remaining
  induction remaining with
  | zero => intro i; simp [davinci_ks_scan]
  | succ r ih =>
    intro i
    rw [davinci_ks_scan, ih (i + 1), davinci_ks_scan_bit_eq, List.range'_succ]
    by_cases hc : changed.testBit i = true
    · simp [List.filter_cons, hc]
    · simp [List.filter_cons, hc]

/-- C1: for 32-bit PREVSTATE and CURRENTST values and a key map of size
`n ≤ 32`, the calls reported by `davinci_ks_interrupt` are exactly, for `i`
ascending over `0..n-1` with bit `i` of `prev XOR new` set, the key event of
`keymap[i]` (value 1 if bit `i` of `new` is 0, value 0 if it is 1) followed
by a sync; unchanged positions report nothing, and nothing at all is
reported when `prev = new`. -/
theorem davinci_ks_interrupt_events (keymap : Nat → Nat) (n prev new : Nat)
    (_hn : n ≤ 32) (_hprev : prev < 2 ^ 32) (_hnew : new < 2 ^ 32) :
    (davinci_ks_interrupt keymap (n : Int) prev new).events =
        ((List.range n).filter (fun i => (prev ^^^ new).testBit i)).flatMap
          (fun i => [InputEvent.key (keymap i) (if new.testBit i then 0 else 1),
                     InputEvent.sync])
      ∧ (prev = new → (davinci_ks_interrupt keymap (n : Int) prev new).events = []) := by
  have hmain : (davinci_ks_interrupt keymap (n : Int) prev new).events =
        ((List.range n).filter (fun i => (prev ^^^ new).testBit i)).flatMap
          (spec_key_change keymap new) := by
    unfold davinci_ks_interrupt
    by_cases hc : prev ^^^ new = 0
    · simp [hc]
    · simp only [ne_eq, hc, not_false_eq_true, if_true, Int.toNat_ofNat]
      rw [davinci_ks_scan_eq, List.range_eq_range']
  refine ⟨hmain, ?_⟩
  intro h
  rw [hmain, h, Nat.xor_self]
  simp

theorem davinci_ks_interrupt_events_witness :
    (16 ≤ 32 ∧ 0b0101 < 2 ^ 32 ∧ 0b0110 < 2 ^ 32)
      ∧ (davinci_ks_interrupt (fun i => 100 + i) ((16 : Nat) : Int) 0b0101 0b0110).events =
        ((List.range 16).filter (fun i => (0b0101 ^^^ 0b0110).testBit i)).flatMap
          (fun i => [InputEvent.key ((fun i => 100 + i) i) (if (0b0110).testBit i then 0 else 1),
                     InputEvent.sync])
      ∧ (0b0101 = 0b0110 →
          (davinci_ks_interrupt (fun i => 100 + i) ((16 : Nat) : Int) 0b0101 0b0110).events = []) :=
  ⟨by decide,
    davinci_ks_interrupt_events (fun i => 100 + i) 16 0b0101 0b0110
      (by decide) (by decide) (by decide)⟩

/-- C2 fails as stated: with a 16-entry key map (the 4x4 matrix), bit 20
of `prev XOR new` is set and no event at all is reported. -/
theorem davinci_ks_interrupt_bit_beyond_keymap :
    (0 ^^^ 2 ^ 20).testBit 20 = true
      ∧ (davinci_ks_interrupt (fun i => 100 + i) 16 0 (2 ^ 20)).events = [] := by
  decide

/-- C2, amended: for 32-bit register values and a key map size of at most
32, `davinci_ks_interrupt` goes through the bits of `prev XOR new` below
`keymapsize` and no further. Every bit position `i < keymapsize` that is set
in `prev XOR new` results in the key event of that position, `keymap[i]`
with value 1 if bit `i` of `new` is 0 and value 0 otherwise, directly
followed by a sync. The calls reported are exactly those of the changed
positions below `keymapsize`, in ascending order: every reported key event
comes from such a position, and when all changed bits are at positions
`>= keymapsize` nothing is reported. -/
theorem davinci_ks_interrupt_no_change_missed (keymap : Nat → Nat) (keymapsize : Int)
    (prev new : Nat) (_hsize : keymapsize ≤ 32) (_hprev : prev < 2 ^ 32)
    (_hnew : new < 2 ^ 32) :
    (∀ i : Nat, (i : Int) < keymapsize → (prev ^^^ new).testBit i = true →
        [InputEvent.key (keymap i) (if new.testBit i then 0 else 1), InputEvent.sync]
          <:+: (davinci_ks_interrupt keymap keymapsize prev new).events)
      ∧ (davinci_ks_interrupt keymap keymapsize prev new).events
          = ((List.range keymapsize.toNat).filter (fun j => (prev ^^^ new).testBit j)).flatMap
              (fun i => [InputEvent.key (keymap i) (if new.testBit i then 0 else 1),
                         InputEvent.sync])
      ∧ (∀ ev ∈ (davinci_ks_interrupt keymap keymapsize prev new).events,
          ev = InputEvent.sync
            ∨ ∃ i : Nat, (i : Int) < keymapsize ∧ (prev ^^^ new).testBit i = true
                ∧ ev = InputEvent.key (keymap i) (if new.testBit i then 0 else 1))
      ∧ ((∀ i : Nat, (i : Int) < keymapsize → (prev ^^^ new).testBit i = false) →
          (davinci_ks_interrupt keymap keymapsize prev new).events = []) := by
  have hev : (davinci_ks_interrupt keymap keymapsize prev new).events =
      ((List.range keymapsize.toNat).filter (fun j => (prev ^^^ new).testBit j)).flatMap
        (spec_key_change keymap new) := by
    unfold davinci_ks_interrupt
    by_cases hc : prev ^^^ new = 0
    · simp [hc]
    · simp only [ne_eq, hc, not_false_eq_true, if_true]
      rw [davinci_ks_scan_eq, List.range_eq_range']
  refine ⟨?_, hev, ?_, ?_⟩
  · intro i hi hbit
    rw [hev]
    have hmem : i ∈ (List.range keymapsize.toNat).filter
        (fun j => (prev ^^^ new).testBit j) := by
      rw [List.mem_filter, List.mem_range]
      exact ⟨by omega, hbit⟩
    exact List.infix_of_mem_flatten (List.mem_map.2 ⟨i, hmem, rfl⟩)
  · intro ev hmem
    rw [hev, List.mem_flatMap] at hmem
    obtain ⟨i, hi, hin⟩ := hmem
    rw [List.mem_filter, List.mem_range] at hi
    simp only [spec_key_change, List.mem_cons, List.mem_singleton, List.not_mem_nil,
      or_false] at hin
    rcases hin with h | h
    · right
      exact ⟨i, by omega, hi.2, h⟩
    · left
      exact h
  · intro hall
    rw [hev]
    have hnil : (List.range keymapsize.toNat).filter
        (fun j => (prev ^^^ new).testBit j) = [] := by
      rw [List.filter_eq_nil_iff]
      intro j hj
      rw [List.mem_range] at hj
      rw [hall j (by omega)]
      simp
    rw [hnil]
    rfl

theorem davinci_ks_interrupt_no_change_missed_witness :
    ((16 : Int) ≤ 32 ∧ 0b0101 < 2 ^ 32 ∧ 0x100006 < 2 ^ 32)
      ∧ [InputEvent.key ((fun i => 100 + i) 1) (if (0x100006 : Nat).testBit 1 then 0 else 1),
          InputEvent.sync]
        <:+: (davinci_ks_interrupt (fun i => 100 + i) 16 0b0101 0x100006).events
      ∧ (0b0101 ^^^ 0x100006).testBit 20 = true
      ∧ (davinci_ks_interrupt (fun i => 100 + i) 16 0b0101 0x100006).events
          = [InputEvent.key 100 1, InputEvent.sync, InputEvent.key 101 0, InputEvent.sync] := by
  have h := davinci_ks_interrupt_no_change_missed (fun i => 100 + i) 16 0b0101 0x100006
    (by decide) (by decide) (by decide)
  refine ⟨by decide, h.1 1 (by decide) (by decide), by decide, ?_⟩
  rw [h.2.1]
  decide

/-! ## cobalt_btns.c -/

theorem wrap_int_succ (c : Int) (hlo : -2 ^ 31 ≤ c) (hhi : c < 2 ^ 31 - 1) :
    wrap_int (c + 1) = c + 1 := by
  unfold wrap_int
  omega

theorem handle_buttons_step_keymap (status : Nat) (bdev : buttons_dev) (i : Nat) :
    (handle_buttons_step status bdev i).1.keymap = bdev.keymap := by
  simp only [handle_buttons_step]
  split_ifs <;> rfl

theorem handle_buttons_step_count_other (status : Nat) (bdev : buttons_dev) (i j : Nat)
    (hj : j ≠ i) : (handle_buttons_step status bdev i).1.count j = bdev.count j := by
  simp only [handle_buttons_step]
  split_ifs <;> simp [Function.update_apply, hj]

theorem handle_buttons_step_congr (status : Nat) (b1 b2 : buttons_dev) (i : Nat)
    (hk : b1.keymap i = b2.keymap i) (hc : b1.count i = b2.count i) :
    (handle_buttons_step status b1 i).2 = (handle_buttons_step status b2 i).2
      ∧ (handle_buttons_step status b1 i).1.count i
          = (handle_buttons_step status b2 i).1.count i := by
  simp only [handle_buttons_step]
  rw [hk, hc]
  split_ifs <;> simp [Function.update_apply]

theorem handle_buttons_loop_spec (status : Nat) :
    ∀ (remaining i : Nat) (bdev : buttons_dev),
      (handle_buttons_loop status remaining i bdev).2
          = (List.range' i remaining).flatMap (fun j => (handle_buttons_step status bdev j).2)
        ∧ (handle_buttons_loop status remaining i bdev).1.keymap = bdev.keymap
        ∧ ∀ j, (handle_buttons_loop status remaining i bdev).1.count j
            = if i ≤ j ∧ j < i + remaining then (handle_buttons_step status bdev j).1.count j
              else bdev.count j := by
  intro remaining
  induction remaining with
  | zero =>
    intro i bdev
    refine ⟨by simp [handle_buttons_loop], by simp [handle_buttons_loop], ?_⟩
    intro j
    have : ¬ (i ≤ j ∧ j < i + 0) := by omega
    rw [if_neg this]
    rfl
  | succ r ih =>
    intro i bdev
    obtain ⟨hev, hkm, hcnt⟩ := ih (i + 1) (handle_buttons_step status bdev i).1
    have hsame : ∀ j, i + 1 ≤ j →
        (handle_buttons_step status (handle_buttons_step status bdev i).1 j).2
            = (handle_buttons_step status bdev j).2
          ∧ (handle_buttons_step status (handle_buttons_step status bdev i).1 j).1.count j
            = (handle_buttons_step status bdev j).1.count j := by
      intro j hj
      apply handle_buttons_step_congr
      · rw [handle_buttons_step_keymap]
      · exact handle_buttons_step_count_other status bdev i j (by omega)
    refine ⟨?_, ?_, ?_⟩
    · simp only [handle_buttons_loop]
      rw [hev, List.range'_succ, List.flatMap_cons]
      congr 1
      apply List.flatMap_congr
      intro j hj
      rw [List.mem_range'_1] at hj
      exact (hsame j hj.1).1
    · simp only [handle_buttons_loop]
      rw [hkm, handle_buttons_step_keymap]
    · intro j
      simp only [handle_buttons_loop]
      rw [hcnt j]
      by_cases h1 : i + 1 ≤ j ∧ j < i + 1 + r
      · have h2 : i ≤ j ∧ j < i + (r + 1) := by omega
        rw [if_pos h1, if_pos h2]
        exact (hsame j h1.1).2
      · rw [if_neg h1]
        by_cases h3 : j = i
        · subst h3
          have h2 : j ≤ j ∧ j < j + (r + 1) := by omega
          rw [if_pos h2]
        · have h2 : ¬ (i ≤ j ∧ j < i + (r + 1)) := by omega
          rw [if_neg h2]
          exact handle_buttons_step_count_other status bdev i j h3

theorem cobalt_status_bit (reg i : Nat) (hi : i < 8) :
    (((reg ^^^ 0xffffffff) >>> 24) &&& (1 <<< i) ≠ 0) ↔ spec_button_active reg i = true := by
  rw [and_one_shiftLeft_ne_zero, Nat.testBit_shiftRight, Nat.testBit_xor]
  have hones : (0xffffffff : Nat).testBit (24 + i) = true := by
    have h : (0xffffffff : Nat) = 2 ^ 32 - 1 := by norm_num
    rw [h, Nat.testBit_two_pow_sub_one]
    simp
    omega
  rw [hones]
  unfold spec_button_active
  cases reg.testBit (24 + i) <;> simp

theorem handle_buttons_step_spec (reg : Nat) (bdev : buttons_dev) (i : Nat) (hi : i < 8)
    (hlo : -2 ^ 31 ≤ bdev.count i) (hhi : bdev.count i < 2 ^ 31 - 1) :
    (handle_buttons_step ((reg ^^^ 0xffffffff) >>> 24) bdev i).2 = spec_button_events reg bdev i
      ∧ (handle_buttons_step ((reg ^^^ 0xffffffff) >>> 24) bdev i).1.count i
          = spec_button_count reg bdev i := by
  simp only [handle_buttons_step, spec_button_events, spec_button_count]
  rw [wrap_int_succ _ hlo hhi]
  by_cases ha : spec_button_active reg i = true
  · have hs := (cobalt_status_bit reg i hi).2 ha
    rw [if_pos hs, if_pos ha, if_pos ha]
    by_cases h3 : bdev.count i + 1 = 3
    · simp [h3, BUTTONS_COUNT_THRESHOLD, input_report_key, input_sync]
    · simp [h3, BUTTONS_COUNT_THRESHOLD]
  · have hs : ¬ (((reg ^^^ 0xffffffff) >>> 24) &&& (1 <<< i) ≠ 0) :=
      fun h => ha ((cobalt_status_bit reg i hi).1 h)
    rw [if_neg hs, if_neg ha, if_neg ha]
    by_cases h3 : bdev.count i ≥ 3
    · simp [h3, BUTTONS_COUNT_THRESHOLD, input_report_key, input_sync]
    · simp [h3, BUTTONS_COUNT_THRESHOLD]

/-- C3: one poll step of `handle_buttons`, for a 32-bit register value and
counters that are not at `INT_MAX`. The calls made are those of the buttons
0..7 in ascending order, and for each button `i`: it is active iff bit
`24 + i` of `reg` is 0; if active, `count[i]` becomes `count[i] + 1` and a
press (MSC_SCAN `i`, key `keymap[i]` value 1, sync) is emitted iff the new
count is exactly 3; if inactive, a release (MSC_SCAN `i`, key `keymap[i]`
value 0, sync) is emitted iff the old count is at least 3, and `count[i]`
becomes 0. -/
theorem handle_buttons_debounce (reg : Nat) (bdev : buttons_dev) (_hreg : reg < 2 ^ 32)
    (hcnt : ∀ i, i < 8 → -2 ^ 31 ≤ bdev.count i ∧ bdev.count i < 2 ^ 31 - 1) :
    (handle_buttons reg bdev).2
        = (List.range 8).flatMap (fun i =>
            if reg.testBit (24 + i) = false then
              (if bdev.count i + 1 = 3 then
                [InputEvent.msc_scan i, InputEvent.key (bdev.keymap i) 1, InputEvent.sync]
               else [])
            else
              (if bdev.count i ≥ 3 then
                [InputEvent.msc_scan i, InputEvent.key (bdev.keymap i) 0, InputEvent.sync]
               else []))
      ∧ (∀ i, i < 8 → (handle_buttons reg bdev).1.count i
            = if reg.testBit (24 + i) = false then bdev.count i + 1 else 0)
      ∧ (handle_buttons reg bdev).1.keymap = bdev.keymap := by
  obtain ⟨hev, hkm, hc⟩ :=
    handle_buttons_loop_spec ((reg ^^^ 0xffffffff) >>> 24) cobalt_map_size 0 bdev
  have hspec : ∀ i, i < 8 →
      spec_button_events reg bdev i
          = (if reg.testBit (24 + i) = false then
              (if bdev.count i + 1 = 3 then
                [InputEvent.msc_scan i, InputEvent.key (bdev.keymap i) 1, InputEvent.sync]
               else [])
            else
              (if bdev.count i ≥ 3 then
                [InputEvent.msc_scan i, InputEvent.key (bdev.keymap i) 0, InputEvent.sync]
               else []))
        ∧ spec_button_count reg bdev i
          = (if reg.testBit (24 + i) = false then bdev.count i + 1 else 0) := by
    intro i _
    unfold spec_button_events spec_button_count spec_button_active
    cases reg.testBit (24 + i) <;> simp
  refine ⟨?_, ?_, hkm⟩
  · show (handle_buttons_loop ((reg ^^^ 0xffffffff) >>> 24) cobalt_map_size 0 bdev).2 = _
    rw [hev, List.range_eq_range']
    apply List.flatMap_congr
    intro i hi
    rw [List.mem_range'_1] at hi
    have hi8 : i < 8 := by
      have := hi.2
      simp only [cobalt_map_size] at this
      omega
    rw [(handle_buttons_step_spec reg bdev i hi8 (hcnt i hi8).1 (hcnt i hi8).2).1]
    exact (hspec i hi8).1
  · intro i hi8
    show (handle_buttons_loop ((reg ^^^ 0xffffffff) >>> 24) cobalt_map_size 0 bdev).1.count i = _
    rw [hc i]
    have hin : 0 ≤ i ∧ i < 0 + cobalt_map_size := by
      simp only [cobalt_map_size]
      omega
    rw [if_pos hin, (handle_buttons_step_spec reg bdev i hi8 (hcnt i hi8).1 (hcnt i hi8).2).2]
    exact (hspec i hi8).2

theorem handle_buttons_debounce_witness :
    (0xfe000000 < 2 ^ 32)
      ∧ (handle_buttons 0xfe000000 ⟨fun i => 10 + i, fun _ => 2⟩).2
          = [InputEvent.msc_scan 0, InputEvent.key 10 1, InputEvent.sync]
      ∧ (handle_buttons 0xfe000000 ⟨fun i => 10 + i, fun _ => 2⟩).1.count 0 = 3
      ∧ (handle_buttons 0xfe000000 ⟨fun i => 10 + i, fun _ => 2⟩).1.count 1 = 0 := by
  have h := handle_buttons_debounce 0xfe000000 ⟨fun i => 10 + i, fun _ => 2⟩ (by decide)
    (by intro i _; constructor <;> norm_num)
  refine ⟨by decide, ?_, ?_, ?_⟩
  · rw [h.1]; decide
  · rw [h.2.1 0 (by decide)]; decide
  · rw [h.2.1 1 (by decide)]; decide

/-! ## pcap_keys.c -/

theorem pcap_masked_status (pstat pirq : Nat) (hpirq : pirq < 32) :
    (pstat &&& ((1 <<< pirq) % 2 ^ 32) = 0) ↔ pstat.testBit pirq = false := by
  have hlt : 2 ^ pirq < 2 ^ 32 := Nat.pow_lt_pow_right (by norm_num) hpirq
  rw [Nat.one_shiftLeft, Nat.mod_eq_of_lt hlt, Nat.and_two_pow]
  cases h : pstat.testBit pirq <;> simp

theorem pcap_reported_value (code pstat pirq : Nat) (hpirq : pirq < 32) :
    input_report_key code (lnot ((pstat &&& ((1 <<< pirq) % 2 ^ 32) : Nat) : Int))
      = InputEvent.key code (if pstat.testBit pirq then 0 else 1) := by
  unfold input_report_key lnot
  by_cases hb : pstat.testBit pirq = true
  · have hz : ¬ (pstat &&& ((1 <<< pirq) % 2 ^ 32) = 0) := by
      rw [pcap_masked_status pstat pirq hpirq]
      simp [hb]
    have hz2 : ¬ (((pstat &&& ((1 <<< pirq) % 2 ^ 32) : Nat) : Int) = 0) := by
      exact_mod_cast hz
    rw [if_neg hz2, if_pos hb]
    simp
  · have hz : pstat &&& ((1 <<< pirq) % 2 ^ 32) = 0 := by
      rw [pcap_masked_status pstat pirq hpirq]
      simpa using hb
    rw [hz, if_neg hb]
    simp

/-- C4: `pcap_keys_handler`, for an interrupt number `pirq < 32` and a
32-bit PSTAT value: for `PCAP_IRQ_ONOFF` exactly one key event `KEY_POWER`
is reported, for `PCAP_IRQ_MIC` exactly one key event `KEY_HP`, in both
cases with value 1 iff bit `pirq` of `pstat` is 0; for any other `pirq` no
key event is reported; one sync follows in every case and `IRQ_HANDLED` is
returned. -/
theorem pcap_keys_handler_dispatch (PCAP_IRQ_ONOFF PCAP_IRQ_MIC KEY_POWER KEY_HP : Nat)
    (pirq pstat : Nat) (hne : PCAP_IRQ_ONOFF ≠ PCAP_IRQ_MIC) (hpirq : pirq < 32)
    (_hpstat : pstat < 2 ^ 32) :
    (pirq = PCAP_IRQ_ONOFF →
        (pcap_keys_handler PCAP_IRQ_ONOFF PCAP_IRQ_MIC KEY_POWER KEY_HP pirq pstat).1
          = [InputEvent.key KEY_POWER (if pstat.testBit pirq then 0 else 1), InputEvent.sync])
      ∧ (pirq = PCAP_IRQ_MIC →
        (pcap_keys_handler PCAP_IRQ_ONOFF PCAP_IRQ_MIC KEY_POWER KEY_HP pirq pstat).1
          = [InputEvent.key KEY_HP (if pstat.testBit pirq then 0 else 1), InputEvent.sync])
      ∧ (pirq ≠ PCAP_IRQ_ONOFF → pirq ≠ PCAP_IRQ_MIC →
        (pcap_keys_handler PCAP_IRQ_ONOFF PCAP_IRQ_MIC KEY_POWER KEY_HP pirq pstat).1
          = [InputEvent.sync])
      ∧ (pcap_keys_handler PCAP_IRQ_ONOFF PCAP_IRQ_MIC KEY_POWER KEY_HP pirq pstat).2
          = irqreturn_t.IRQ_HANDLED := by
  refine ⟨?_, ?_, ?_, rfl⟩
  · intro h
    simp only [pcap_keys_handler, if_pos h]
    rw [pcap_reported_value KEY_POWER pstat pirq hpirq]
    rfl
  · intro h
    have h1 : pirq ≠ PCAP_IRQ_ONOFF := by
      rw [h]
      exact fun e => hne e.symm
    simp only [pcap_keys_handler, if_neg h1, if_pos h]
    rw [pcap_reported_value KEY_HP pstat pirq hpirq]
    rfl
  · intro h1 h2
    simp only [pcap_keys_handler, if_neg h1, if_neg h2]
    rfl

theorem pcap_keys_handler_dispatch_witness :
    (7 : Nat) ≠ 11 ∧ (11 : Nat) < 32 ∧ (0x80 : Nat) < 2 ^ 32
      ∧ (pcap_keys_handler 7 11 116 211 11 0x80).1
          = [InputEvent.key 211 (if (0x80 : Nat).testBit 11 then 0 else 1), InputEvent.sync] :=
  ⟨by decide, by decide, by decide,
    (pcap_keys_handler_dispatch 7 11 116 211 11 0x80 (by decide) (by decide) (by decide)).2.1
      rfl⟩

/-! ## mc13783-adc.c -/

theorem and_0x3ff (x : Nat) : x &&& 0x3ff = x % 2 ^ 10 := by
  have h : (0x3ff : Nat) = 2 ^ 10 - 1 := by norm_num
  rw [h, Nat.and_pow_two_sub_one_eq_mod]

theorem and_0x7 (x : Nat) : x &&& 0x7 = x % 2 ^ 3 := by
  have h : (0x7 : Nat) = 2 ^ 3 - 1 := by norm_num
  rw [h, Nat.and_pow_two_sub_one_eq_mod]

/-- C5: `mc13783_adc_read` after a successful conversion, for every
channel index `ch` and every sample array: with `c = ch AND 7`, the call
succeeds (returns 0) and the value stored is
`(sample[c % 4] >> (c > 3 ? 14 : 2)) & 0x3ff`, that is bits 2..11 of
`sample[c mod 4]` when `c ≤ 3` and bits 14..23 when `c ≥ 4`; the stored
value is always below 1024. -/
theorem mc13783_adc_read_mask_shift (sample : Nat → Nat) (ch : Nat) :
    ∃ v, mc13783_adc_read 0 sample ch = Except.ok v
      ∧ v = (sample ((ch &&& 7) % 4) >>> (if ch &&& 7 > 3 then 14 else 2)) &&& 0x3ff
      ∧ (ch &&& 7 ≤ 3 → ∀ k, v.testBit k
            = (decide (k < 10) && (sample ((ch &&& 7) % 4)).testBit (2 + k)))
      ∧ (ch &&& 7 ≥ 4 → ∀ k, v.testBit k
            = (decide (k < 10) && (sample ((ch &&& 7) % 4)).testBit (14 + k)))
      ∧ ch &&& 7 = ch % 8
      ∧ v < 1024 := by
  refine ⟨_, rfl, rfl, ?_, ?_, ?_, ?_⟩
  · intro hc k
    have h3 : ¬ (ch &&& 7 > 3) := by omega
    rw [if_neg h3, and_0x3ff, Nat.testBit_mod_two_pow, Nat.testBit_shiftRight]
  · intro hc k
    have h3 : ch &&& 7 > 3 := by omega
    rw [if_pos h3, and_0x3ff, Nat.testBit_mod_two_pow, Nat.testBit_shiftRight]
  · exact and_0x7 ch
  · rw [and_0x3ff]
    exact Nat.mod_lt _ (by norm_num)

theorem div_round_closest_times9_by4 (val : Nat) (hval : val < 1024) :
    DIV_ROUND_CLOSEST (val * 9 % 2 ^ 32) 4 = (9 * val + 2) / 4 := by
  unfold DIV_ROUND_CLOSEST
  omega

theorem div_round_closest_times9_by2 (val : Nat) (hval : val < 1024) :
    DIV_ROUND_CLOSEST (val * 9 % 2 ^ 32) 2 = (9 * val + 1) / 2 := by
  unfold DIV_ROUND_CLOSEST
  omega

/-- C6: `mc13783_adc_read_gp` treats each raw bit as worth 9/4 mV: when the
raw 10-bit value read is `val`, the number printed is `(9 * val + 2) div 4`,
the integer nearest to `val * 9 / 4` with exact halves rounded up, so the
printed value `v` satisfies `|4 * v - 9 * val| ≤ 2`. -/
theorem mc13783_adc_read_gp_scale (sample : Nat → Nat) (ch val : Nat) (hval : val < 1024)
    (hread : mc13783_adc_read 0 sample ch = Except.ok val) :
    ∃ v, mc13783_adc_read_gp 0 sample ch = Except.ok v
      ∧ v = (9 * val + 2) / 4
      ∧ 4 * v ≤ 9 * val + 2 ∧ 9 * val < 4 * v + 2
      ∧ |4 * (v : Int) - 9 * (val : Int)| ≤ 2 := by
  refine ⟨(9 * val + 2) / 4, ?_, rfl, ?_, ?_, ?_⟩
  · simp only [mc13783_adc_read_gp, hread]
    rw [div_round_closest_times9_by4 val hval]
  · omega
  · omega
  · rw [abs_le]
    constructor <;> omega

theorem mc13783_adc_read_gp_scale_witness :
    (1023 : Nat) < 1024
      ∧ mc13783_adc_read 0 (fun _ => 0xffffffff) 5 = Except.ok 1023
      ∧ ∃ v, mc13783_adc_read_gp 0 (fun _ => 0xffffffff) 5 = Except.ok v
          ∧ v = (9 * 1023 + 2) / 4
          ∧ 4 * v ≤ 9 * 1023 + 2 ∧ 9 * 1023 < 4 * v + 2
          ∧ |4 * (v : Int) - 9 * ((1023 : Nat) : Int)| ≤ 2 :=
  ⟨by decide, rfl,
    mc13783_adc_read_gp_scale (fun _ => 0xffffffff) 5 1023 (by decide) rfl⟩

/-- C7 fails as stated: at the full-scale raw value 1023 the function
`mc13783_adc_read_gp` prints 2302, which is above 2300. -/
theorem mc13783_adc_read_gp_full_scale :
    mc13783_adc_read 0 (fun _ => 0xffffffff) 5 = Except.ok 1023
      ∧ mc13783_adc_read_gp 0 (fun _ => 0xffffffff) 5 = Except.ok 2302
      ∧ ¬ ((2302 : Nat) ≤ 2300) :=
  ⟨rfl, rfl, by decide⟩

/-- C7, amended: when the raw 10-bit value read is `val`, the millivolt
value printed by `mc13783_adc_read_gp` lies between 0 and 2302 inclusive,
and it is at most 2300 exactly when `val ≤ 1022`. -/
theorem mc13783_adc_read_gp_range (sample : Nat → Nat) (ch val : Nat) (hval : val < 1024)
    (hread : mc13783_adc_read 0 sample ch = Except.ok val) :
    ∃ v, mc13783_adc_read_gp 0 sample ch = Except.ok v
      ∧ 0 ≤ v ∧ v ≤ 2302 ∧ (v ≤ 2300 ↔ val ≤ 1022) := by
  refine ⟨(9 * val + 2) / 4, ?_, Nat.zero_le _, ?_, ?_⟩
  · simp only [mc13783_adc_read_gp, hread]
    rw [div_round_closest_times9_by4 val hval]
  · omega
  · omega

theorem mc13783_adc_read_gp_range_witness :
    (1022 : Nat) < 1024
      ∧ mc13783_adc_read 0 (fun _ => 4088) 8 = Except.ok 1022
      ∧ ∃ v, mc13783_adc_read_gp 0 (fun _ => 4088) 8 = Except.ok v
          ∧ 0 ≤ v ∧ v ≤ 2302 ∧ (v ≤ 2300 ↔ 1022 ≤ 1022) :=
  ⟨by decide, rfl, mc13783_adc_read_gp_range (fun _ => 4088) 8 1022 (by decide) rfl⟩

/-- C8: `mc13783_adc_read_bp`, when the raw 10-bit value read is `val`:
without `MC13783_ADC_BPDIV2` in the driver data the printed value is
`(9 * val + 2) div 4 + 2400` (unit 2.25 mV, offset 2.4 V); with
`MC13783_ADC_BPDIV2` it is `(9 * val + 1) div 2`, the integer nearest to
`val * 9 / 2`, with no offset. -/
theorem mc13783_adc_read_bp_scale (driver_data : Nat) (sample : Nat → Nat) (ch val : Nat)
    (hval : val < 1024) (hread : mc13783_adc_read 0 sample ch = Except.ok val) :
    (driver_data.testBit 1 = false →
        mc13783_adc_read_bp driver_data 0 sample ch = Except.ok ((9 * val + 2) / 4 + 2400))
      ∧ (driver_data.testBit 1 = true →
        mc13783_adc_read_bp driver_data 0 sample ch = Except.ok ((9 * val + 1) / 2))
      ∧ (driver_data &&& MC13783_ADC_BPDIV2 ≠ 0 ↔ driver_data.testBit 1 = true)
      ∧ 2 * ((9 * val + 1) / 2) ≤ 9 * val + 1 ∧ 9 * val < 2 * ((9 * val + 1) / 2) + 1 := by
  have hflag : driver_data &&& MC13783_ADC_BPDIV2 ≠ 0 ↔ driver_data.testBit 1 = true := by
    have h := and_one_shiftLeft_ne_zero driver_data 1
    simpa [MC13783_ADC_BPDIV2] using h
  refine ⟨?_, ?_, hflag, by omega, by omega⟩
  · intro hb
    have hn : ¬ (driver_data &&& MC13783_ADC_BPDIV2 ≠ 0) := by
      rw [hflag, hb]
      simp
    simp only [mc13783_adc_read_bp, hread, if_neg hn]
    rw [div_round_closest_times9_by4 val hval]
    have hsmall : ((9 * val + 2) / 4 + 2400) % 2 ^ 32 = (9 * val + 2) / 4 + 2400 := by
      omega
    rw [hsmall]
  · intro hb
    have hp : driver_data &&& MC13783_ADC_BPDIV2 ≠ 0 := hflag.2 hb
    simp only [mc13783_adc_read_bp, hread, if_pos hp]
    rw [div_round_closest_times9_by2 val hval]

theorem mc13783_adc_read_bp_scale_witness :
    (1023 : Nat) < 1024
      ∧ mc13783_adc_read 0 (fun _ => 0xffffffff) 2 = Except.ok 1023
      ∧ mc13783_adc_read_bp MC13783_ADC_16CHANS 0 (fun _ => 0xffffffff) 2
          = Except.ok ((9 * 1023 + 2) / 4 + 2400)
      ∧ mc13783_adc_read_bp MC13783_ADC_BPDIV2 0 (fun _ => 0xffffffff) 2
          = Except.ok ((9 * 1023 + 1) / 2) :=
  ⟨by decide, rfl,
    (mc13783_adc_read_bp_scale MC13783_ADC_16CHANS (fun _ => 0xffffffff) 2 1023
      (by decide) rfl).1 (by decide),
    (mc13783_adc_read_bp_scale MC13783_ADC_BPDIV2 (fun _ => 0xffffffff) 2 1023
      (by decide) rfl).2.1 (by decide)⟩

/-- C9, the code at the deciding inputs: `mc13783_adc_probe` registers the
group `mc13783_group_ts` (in12..in15) exactly when
`MC13XXX_USE_TOUCHSCREEN` IS set in the flags, the opposite of adding the
channels only when the touchscreen does not occupy them. With the flag set
(flags = 1) the group is registered, with the flag clear (flags = 0) it is
not. -/
theorem mc13783_adc_probe_ts_group_inverted :
    (∀ (ENOMEM : Int) (MC13XXX_USE_TOUCHSCREEN driver_data flags : Nat) (hwmon_err : Int),
        ∃ gs, (mc13783_adc_probe ENOMEM MC13XXX_USE_TOUCHSCREEN true driver_data flags
                  hwmon_err).groups = some gs
          ∧ (attribute_group.mc13783_group_ts ∈ gs ↔ flags &&& MC13XXX_USE_TOUCHSCREEN ≠ 0))
      ∧ (mc13783_adc_probe 12 1 true MC13783_ADC_16CHANS 1 0).groups
          = some [attribute_group.mc13783_group_base, attribute_group.mc13783_group_16chans,
                  attribute_group.mc13783_group_ts]
      ∧ (mc13783_adc_probe 12 1 true MC13783_ADC_16CHANS 0 0).groups
          = some [attribute_group.mc13783_group_base, attribute_group.mc13783_group_16chans] := by
  refine ⟨?_, by decide, by decide⟩
  intro ENOMEM TS driver_data flags hwmon_err
  refine ⟨_, rfl, ?_⟩
  by_cases h16 : driver_data &&& MC13783_ADC_16CHANS ≠ 0 <;>
    by_cases hts : flags &&& TS ≠ 0 <;> simp [h16, hts]

/-! ## da9055_onkey.c -/

theorem int_land_of_nonneg (r : Int) (n : Nat) (hr : 0 ≤ r) :
    Int.land r (n : Int) = ((r.toNat &&& n : Nat) : Int) := by
  obtain ⟨m, rfl⟩ := Int.eq_ofNat_of_zero_le hr
  rfl

/-- C10: `da9055_onkey_query`, for every result `r` of reading
`DA9055_REG_STATUS_A`: a KEY_POWER release (value 0, then sync) is reported
iff `r ≥ 0` and `(r AND DA9055_NOKEY_STS) = 0`, and nothing else is ever
reported; the delayed work is rescheduled (10 ms) iff no release was
reported, i.e. iff `r < 0` or the status bit is still set. Exactly one of
the two happens on every call. -/
theorem da9055_onkey_query_release_or_reschedule (DA9055_NOKEY_STS KEY_POWER : Nat)
    (r : Int) :
    ((da9055_onkey_query DA9055_NOKEY_STS KEY_POWER r).events
          = [InputEvent.key KEY_POWER 0, InputEvent.sync]
        ↔ (0 ≤ r ∧ r.toNat &&& DA9055_NOKEY_STS = 0))
      ∧ ((da9055_onkey_query DA9055_NOKEY_STS KEY_POWER r).events
            = [InputEvent.key KEY_POWER 0, InputEvent.sync]
          ∨ (da9055_onkey_query DA9055_NOKEY_STS KEY_POWER r).events = [])
      ∧ ((da9055_onkey_query DA9055_NOKEY_STS KEY_POWER r).scheduled = some 10
        ↔ (da9055_onkey_query DA9055_NOKEY_STS KEY_POWER r).events = [])
      ∧ ((da9055_onkey_query DA9055_NOKEY_STS KEY_POWER r).scheduled = some 10
        ↔ (r < 0 ∨ r.toNat &&& DA9055_NOKEY_STS ≠ 0))
      ∧ ((da9055_onkey_query DA9055_NOKEY_STS KEY_POWER r).scheduled = none
        ↔ (da9055_onkey_query DA9055_NOKEY_STS KEY_POWER r).events
            = [InputEvent.key KEY_POWER 0, InputEvent.sync]) := by
  by_cases hneg : r < 0
  · have hr0 : r ≠ 0 := by omega
    have hnn : ¬ (0 ≤ r) := by omega
    simp [da9055_onkey_query, hneg, hr0, hnn]
  · have hnn : 0 ≤ r := by omega
    have hland := int_land_of_nonneg r DA9055_NOKEY_STS hnn
    by_cases hz : r.toNat &&& DA9055_NOKEY_STS = 0
    · have hl0 : Int.land r (DA9055_NOKEY_STS : Int) = 0 := by
        rw [hland, hz]
        rfl
      simp [da9055_onkey_query, hneg, hnn, hz, hl0, input_report_key, input_sync]
    · have hl0 : ¬ (Int.land r (DA9055_NOKEY_STS : Int) = 0) := by
        rw [hland]
        exact_mod_cast hz
      simp [da9055_onkey_query, hneg, hnn, hz, hl0]

/-! ## davinci_ks_initialize -/

/-- C11: `davinci_ks_initialize`, for every platform `matrix_type`: for
`DAVINCI_KEYSCAN_MATRIX_4X4` it returns 0 and the last write is
`KEYCTRL = AUTODET | KEYEN | 0` (0x09), for `DAVINCI_KEYSCAN_MATRIX_5X3` it
returns 0 and the last write is `KEYCTRL = AUTODET | KEYEN | (1 << 6)`
(0x49); for any other matrix type it returns `-EINVAL` and no write goes to
KEYCTRL. The five setup writes are made in every case. -/
theorem davinci_ks_initialize_matrix_type
    (DAVINCI_KEYSCAN_MATRIX_4X4 DAVINCI_KEYSCAN_MATRIX_5X3 : Nat) (EINVAL : Int)
    (strobe interval matrix_type : Nat)
    (hne : DAVINCI_KEYSCAN_MATRIX_4X4 ≠ DAVINCI_KEYSCAN_MATRIX_5X3) :
    (matrix_type = DAVINCI_KEYSCAN_MATRIX_4X4 →
        davinci_ks_initialize DAVINCI_KEYSCAN_MATRIX_4X4 DAVINCI_KEYSCAN_MATRIX_5X3 EINVAL
            strobe interval matrix_type
          = { ret := 0
              writes := [(0xf, DAVINCI_KEYSCAN_INTENA), (0xf, DAVINCI_KEYSCAN_INTCLR),
                (strobe, DAVINCI_KEYSCAN_STRBWIDTH), (interval, DAVINCI_KEYSCAN_INTERVAL),
                (0x01, DAVINCI_KEYSCAN_CONTTIME),
                (DAVINCI_KEYSCAN_AUTODET ||| DAVINCI_KEYSCAN_KEYEN ||| 0,
                  DAVINCI_KEYSCAN_KEYCTRL)] })
      ∧ (matrix_type = DAVINCI_KEYSCAN_MATRIX_5X3 →
        davinci_ks_initialize DAVINCI_KEYSCAN_MATRIX_4X4 DAVINCI_KEYSCAN_MATRIX_5X3 EINVAL
            strobe interval matrix_type
          = { ret := 0
              writes := [(0xf, DAVINCI_KEYSCAN_INTENA), (0xf, DAVINCI_KEYSCAN_INTCLR),
                (strobe, DAVINCI_KEYSCAN_STRBWIDTH), (interval, DAVINCI_KEYSCAN_INTERVAL),
                (0x01, DAVINCI_KEYSCAN_CONTTIME),
                (DAVINCI_KEYSCAN_AUTODET ||| DAVINCI_KEYSCAN_KEYEN ||| (1 <<< 6),
                  DAVINCI_KEYSCAN_KEYCTRL)] })
      ∧ (matrix_type ≠ DAVINCI_KEYSCAN_MATRIX_4X4 →
          matrix_type ≠ DAVINCI_KEYSCAN_MATRIX_5X3 →
        ( davinci_ks_initialize DAVINCI_KEYSCAN_MATRIX_4X4 DAVINCI_KEYSCAN_MATRIX_5X3 EINVAL
            strobe interval matrix_type).ret = -EINVAL
          ∧ ∀ w ∈ ( davinci_ks_initialize DAVINCI_KEYSCAN_MATRIX_4X4
              DAVINCI_KEYSCAN_MATRIX_5X3 EINVAL strobe interval matrix_type).writes,
              w.2 ≠ DAVINCI_KEYSCAN_KEYCTRL)
      ∧ DAVINCI_KEYSCAN_AUTODET ||| DAVINCI_KEYSCAN_KEYEN ||| 0 = 0x09
      ∧ DAVINCI_KEYSCAN_AUTODET ||| DAVINCI_KEYSCAN_KEYEN ||| (1 <<< 6) = 0x49 := by
  refine ⟨?_, ?_, ?_, by decide, by decide⟩
  · intro h
    simp only [ davinci_ks_initialize, if_pos h]
    rfl
  · intro h
    have h4 : matrix_type ≠ DAVINCI_KEYSCAN_MATRIX_4X4 := by
      rw [h]
      exact fun e => hne e.symm
    simp only [ davinci_ks_initialize, if_neg h4, if_pos h]
    rfl
  · intro h4 h5
    simp only [ davinci_ks_initialize, if_neg h4, if_neg h5]
    refine ⟨trivial, ?_⟩
    intro w hw
    simp only [List.mem_cons, List.mem_singleton, List.not_mem_nil, or_false] at hw
    rcases hw with h | h | h | h | h <;> rw [h] <;> show _ ≠ _ <;>
      simp [DAVINCI_KEYSCAN_INTENA, DAVINCI_KEYSCAN_INTCLR, DAVINCI_KEYSCAN_STRBWIDTH,
        DAVINCI_KEYSCAN_INTERVAL, DAVINCI_KEYSCAN_CONTTIME, DAVINCI_KEYSCAN_KEYCTRL]

theorem davinci_ks_initialize_matrix_type_witness :
    (0 : Nat) ≠ 1
      ∧ davinci_ks_initialize 0 1 22 0x3f 0x3f 1
          = { ret := 0
              writes := [(0xf, DAVINCI_KEYSCAN_INTENA), (0xf, DAVINCI_KEYSCAN_INTCLR),
                (0x3f, DAVINCI_KEYSCAN_STRBWIDTH), (0x3f, DAVINCI_KEYSCAN_INTERVAL),
                (0x01, DAVINCI_KEYSCAN_CONTTIME),
                (DAVINCI_KEYSCAN_AUTODET ||| DAVINCI_KEYSCAN_KEYEN ||| (1 <<< 6),
                  DAVINCI_KEYSCAN_KEYCTRL)] }
      ∧ ( davinci_ks_initialize 0 1 22 0x3f 0x3f 2).ret = -22 :=
  ⟨by decide,
    (davinci_ks_initialize_matrix_type 0 1 22 0x3f 0x3f 1 (by decide)).2.1 rfl,
    ((davinci_ks_initialize_matrix_type 0 1 22 0x3f 0x3f 2 (by decide)).2.2.1
      (by decide) (by decide)).1⟩

/-! ## gp2ap002a00f.c -/

/-- C12: `gp2a_device_open`, for every result `e` of the enable write
(OPMOD, register 0x4, receives `GP2A_CTRL_SSD = 0x01`) and every GPIO level
`vo`: if `e < 0`, open returns `e` and reports no input event; otherwise
open returns 0 and reports exactly one `SW_FRONT_PROXIMITY` switch event,
of value 1 iff `vo = 0` and value 0 for any non-zero `vo`, followed by one
sync. -/
theorem gp2a_device_open_report (SW_FRONT_PROXIMITY : Nat) (e vo : Int) :
    (e < 0 →
        (gp2a_device_open SW_FRONT_PROXIMITY e vo).ret = e
          ∧ (gp2a_device_open SW_FRONT_PROXIMITY e vo).events = [])
      ∧ (0 ≤ e →
        (gp2a_device_open SW_FRONT_PROXIMITY e vo).ret = 0
          ∧ (gp2a_device_open SW_FRONT_PROXIMITY e vo).events
              = [InputEvent.sw SW_FRONT_PROXIMITY (if vo = 0 then 1 else 0),
                 InputEvent.sync])
      ∧ (gp2a_device_open SW_FRONT_PROXIMITY e vo).i2c_writes = [(0x4, 0x01)]
      ∧ (gp2a_report SW_FRONT_PROXIMITY vo).1 = 0 := by
  refine ⟨?_, ?_, ?_, rfl⟩
  · intro h
    simp [gp2a_device_open, h]
  · intro h
    have hn : ¬ (e < 0) := by omega
    simp only [gp2a_device_open, if_neg hn, gp2a_report, input_report_switch, input_sync, lnot]
    refine ⟨trivial, ?_⟩
    by_cases hv : vo = 0 <;> simp [hv]
  · simp only [gp2a_device_open]
    split_ifs <;> rfl

/-! ## w90p910_keypad.c -/

theorem and_0xf (x : Nat) : x &&& 0xf = x % 2 ^ 4 := by
  have h : (0xf : Nat) = 2 ^ 4 - 1 := by norm_num
  rw [h, Nat.and_pow_two_sub_one_eq_mod]

theorem rotary_delta_exact (e : Nat) (l : Int) (hlo : -2 ^ 31 + 16 ≤ l) (hhi : l < 2 ^ 31) :
    wrap_int (((e &&& 0xf : Nat) : Int) - l) = ((e &&& 0xf : Nat) : Int) - l := by
  have hc : e &&& 0xf < 16 := by
    rw [and_0xf]
    exact Nat.mod_lt _ (by norm_num)
  unfold wrap_int
  omega

/-- C14: one interrupt of `rotary_irq`, for every ERCR value `e`, stored
`last_ercr` value `l` (with `c - l` representable as an `int`) and platform
data: with `c = e AND 0xf` and `delta = c - l`, if `delta = 0` no input
event is emitted and `last_ercr` is unchanged; otherwise `last_ercr`
becomes `c` and, if both `up_key` and `down_key` are non-zero, the events
are exactly key `k` press, sync, key `k` release, sync with `k = up_key`
when `delta > 0` and `k = down_key` when `delta < 0`, else the events are
exactly one relative event `(rel_code, delta)` followed by one sync. -/
theorem rotary_irq_events (pdata : pxa930_rotary_platform_data) (l : Int) (e sbcr : Nat)
    (hlo : -2 ^ 31 + 16 ≤ l) (hhi : l < 2 ^ 31) :
    (((e &&& 0xf : Nat) : Int) - l = 0 →
        (rotary_irq pdata l e sbcr).events = []
          ∧ (rotary_irq pdata l e sbcr).last_ercr = l)
      ∧ (((e &&& 0xf : Nat) : Int) - l ≠ 0 →
        (rotary_irq pdata l e sbcr).last_ercr = ((e &&& 0xf : Nat) : Int)
          ∧ (pdata.up_key ≠ 0 ∧ pdata.down_key ≠ 0 →
              (((e &&& 0xf : Nat) : Int) - l > 0 →
                (rotary_irq pdata l e sbcr).events
                  = [InputEvent.key pdata.up_key 1, InputEvent.sync,
                     InputEvent.key pdata.up_key 0, InputEvent.sync])
              ∧ (((e &&& 0xf : Nat) : Int) - l < 0 →
                (rotary_irq pdata l e sbcr).events
                  = [InputEvent.key pdata.down_key 1, InputEvent.sync,
                     InputEvent.key pdata.down_key 0, InputEvent.sync]))
          ∧ (¬ (pdata.up_key ≠ 0 ∧ pdata.down_key ≠ 0) →
              (rotary_irq pdata l e sbcr).events
                = [InputEvent.rel pdata.rel_code (((e &&& 0xf : Nat) : Int) - l),
                   InputEvent.sync]))
      ∧ (rotary_irq pdata l e sbcr).ret = irqreturn_t.IRQ_HANDLED := by
  have hd := rotary_delta_exact e l hlo hhi
  refine ⟨?_, ?_, ?_⟩
  · intro h0
    simp only [rotary_irq, hd, if_pos h0]
    exact ⟨trivial, trivial⟩
  · intro hne
    refine ⟨?_, ?_, ?_⟩
    · simp only [rotary_irq, hd, if_neg hne]
    · intro hk
      constructor
      · intro hpos
        simp only [rotary_irq, hd, if_neg hne, if_pos hk, if_pos hpos]
        rfl
      · intro hneg
        have hnp : ¬ (((e &&& 0xf : Nat) : Int) - l > 0) := by omega
        simp only [rotary_irq, hd, if_neg hne, if_pos hk, if_neg hnp]
        rfl
    · intro hk
      simp only [rotary_irq, hd, if_neg hne, if_neg hk]
      rfl
  · simp only [rotary_irq]
    split_ifs <;> rfl

theorem rotary_irq_events_witness :
    (-2 ^ 31 + 16 ≤ (5 : Int) ∧ (5 : Int) < 2 ^ 31)
      ∧ (rotary_irq ⟨103, 108, 8⟩ 5 0x13 0x20).last_ercr = 3
      ∧ (rotary_irq ⟨103, 108, 8⟩ 5 0x13 0x20).events
          = [InputEvent.key 108 1, InputEvent.sync, InputEvent.key 108 0, InputEvent.sync] := by
  have h := rotary_irq_events ⟨103, 108, 8⟩ 5 0x13 0x20 (by norm_num) (by norm_num)
  have hne : (((0x13 &&& 0xf : Nat) : Int) - 5 ≠ 0) := by decide
  exact ⟨by norm_num, (h.2.1 hne).1,
    ((h.2.1 hne).2.1 ⟨by decide, by decide⟩).2 (by decide)⟩

end Drivers
